import Mathlib

/-!
Shallow embedding of the zubridge middleware crate (packages/middleware/src)
and proofs about its specification.

Conventions used throughout:
* Rust `u128` epoch-nanosecond timestamps become `Nat`.
* Rust `f64` millisecond durations become `ℚ` (the computations involved are
  subtractions and division by `1_000_000`, modelled exactly; the spec's
  formulas are stated "within floating rounding").  A Rust expression
  `(a as f64 - b as f64) / 1_000_000.0` is written
  `Rat.divInt ((a : Int) - (b : Int)) 1000000`, the exact rational of the
  same value (`Rat.divInt` is used instead of `/` on casts so that concrete
  instances reduce inside the kernel).
* `serde_json::Value` becomes the inductive `JVal` below; a `Number` is either
  integer-backed (`jint`) or float-backed (`jfloat`), matching serde_json's
  representation split, which the serialization code branches on.
* Fallible Rust code returning `Result`/panicking is modelled with `Option`.
-/

namespace Zubridge

/-- JSON values as in `serde_json::Value`.  Integer-backed and float-backed
numbers are kept distinct (as in serde_json's `Number`), since
`ensure_numeric_metrics` treats them differently and serde_json's `PartialEq`
never identifies an integer-backed number with a float-backed one. -/
inductive JVal : Type where
  | jnull : JVal
  | jbool : Bool → JVal
  | jint : Int → JVal
  | jfloat : ℚ → JVal
  | jstr : String → JVal
  | jarr : List JVal → JVal
  | jobj : List (String × JVal) → JVal
deriving Inhabited

/-- Structural equality on `JVal`, mirroring `serde_json::Value: PartialEq`. -/
def JVal.beq : JVal → JVal → Bool
  | .jnull, .jnull => true
  | .jbool a, .jbool b => a == b
  | .jint a, .jint b => a == b
  | .jfloat a, .jfloat b => a == b
  | .jstr a, .jstr b => a == b
  | .jarr a, .jarr b => beqList a b
  | .jobj a, .jobj b => beqFields a b
  | _, _ => false
where
  beqList : List JVal → List JVal → Bool
    | [], [] => true
    | x :: xs, y :: ys => x.beq y && beqList xs ys
    | _, _ => false
  beqFields : List (String × JVal) → List (String × JVal) → Bool
    | [], [] => true
    | (k, v) :: xs, (k', v') :: ys => k == k' && v.beq v' && beqFields xs ys
    | _, _ => false

/-- Lookup of a key in an object's field list (`serde_json::Map::get`). -/
def getField (fs : List (String × JVal)) (k : String) : Option JVal :=
  match fs with
  | [] => none
  | (k', v) :: rest => if k' = k then some v else getField rest k

/-- In-place update of a key's value when present (`Map::get_mut` + write). -/
def setField (fs : List (String × JVal)) (k : String) (v : JVal) :
    List (String × JVal) :=
  match fs with
  | [] => []
  | (k', v') :: rest =>
    if k' = k then (k', v) :: rest else (k', v') :: setField rest k v

/-- Insert-or-replace (`serde_json::Map::insert`): replaces the value if the
key is present, otherwise appends the binding. -/
def insertField (fs : List (String × JVal)) (k : String) (v : JVal) :
    List (String × JVal) :=
  match fs with
  | [] => [(k, v)]
  | (k', v') :: rest =>
    if k' = k then (k', v) :: rest else (k', v') :: insertField rest k v

/-- Membership of a key (`serde_json::Map::contains_key`). -/
def containsKey (fs : List (String × JVal)) (k : String) : Bool :=
  match fs with
  | [] => false
  | (k', _) :: rest => k' == k || containsKey rest k

/-! ## `lib.rs`: core data types -/

/-- Rust `Action` from `lib.rs`. -/
structure Action : Type where
  action_type : String
  payload : Option JVal
  id : Option String
  source_window_id : Option Nat
deriving Inhabited

/-- Rust `PerformanceTransaction` from `lib.rs`; `u128` nanosecond timestamps are
modelled as `Nat`. -/
structure PerformanceTransaction : Type where
  action_type : String
  action_id : Option String
  dispatch_timestamp : Nat
  receive_timestamp : Option Nat
  state_update_timestamp : Option Nat
  acknowledge_timestamp : Option Nat
deriving Inhabited, DecidableEq

/-- Rust `Metrics` from `metrics.rs`; `f64` milliseconds are modelled as `ℚ`. -/
structure Metrics : Type where
  total_ms : ℚ
  deserialization_ms : Option ℚ
  action_processing_ms : Option ℚ
  state_update_ms : Option ℚ
  serialization_ms : Option ℚ
deriving Inhabited, DecidableEq

/-! ## `metrics.rs`: `calculate_from_transaction`

The Rust function has type `Result<Option<Metrics>>` but every exit path is
`Ok(...)` (failures are logged and mapped to `Ok(None)`), so it is embedded as
`Option Metrics`. -/

/-- Function `calculate_from_transaction` from `metrics.rs` (lines 98–176), translated
branch by branch.  Note that disorder of the *state-update* timestamp against
its neighbours is clamped to a `0.0` phase with a warning, while disorder of
`ack`/`receive` against `dispatch` returns `None` outright; the final
negativity check then re-validates everything that was actually computed. -/
def calculate_from_transaction (t : PerformanceTransaction) : Option Metrics :=
  match t.acknowledge_timestamp with
  | none => none
  | some ack_timestamp =>
    match t.receive_timestamp with
    | none => none
    | some receive_timestamp =>
      let dispatch_timestamp := t.dispatch_timestamp
      if ack_timestamp < dispatch_timestamp then none
      else if receive_timestamp < dispatch_timestamp then none
      else
        let dispatch_to_receive : ℚ :=
          Rat.divInt ((receive_timestamp : Int) - (dispatch_timestamp : Int))
            1000000
        let receive_to_update : ℚ :=
          match t.state_update_timestamp with
          | some u =>
            if u < receive_timestamp then 0
            else Rat.divInt ((u : Int) - (receive_timestamp : Int)) 1000000
          | none => 0
        let update_to_ack : ℚ :=
          match t.state_update_timestamp with
          | some u =>
            if ack_timestamp < u then 0
            else Rat.divInt ((ack_timestamp : Int) - (u : Int)) 1000000
          | none =>
            Rat.divInt ((ack_timestamp : Int) - (receive_timestamp : Int))
              1000000
        let total_time : ℚ :=
          Rat.divInt ((ack_timestamp : Int) - (dispatch_timestamp : Int))
            1000000
        if total_time < 0 ∨ dispatch_to_receive < 0 ∨ receive_to_update < 0 ∨
            update_to_ack < 0 then none
        else
          some { total_ms := total_time
                 deserialization_ms := some dispatch_to_receive
                 action_processing_ms := some receive_to_update
                 state_update_ms := some update_to_ack
                 serialization_ms := none }

/-- C5: for every transaction whose timestamps satisfy
`dispatch ≤ receive ≤ state_update ≤ acknowledge`, `calculate_from_transaction`
returns `Some` metrics with `total_ms = (ack − dispatch)/1e6`,
`deserialization_ms = (receive − dispatch)/1e6`,
`action_processing_ms = (state_update − receive)/1e6` and
`state_update_ms = (ack − state_update)/1e6`; when no state-update timestamp
was recorded and `dispatch ≤ receive ≤ ack`, the last phase falls back to
`(ack − receive)/1e6` (and the middle phase is `0`). -/
theorem calcFromTransaction_ordered :
    (∀ (ty : String) (oid : Option String) (d r u a : Nat),
      d ≤ r → r ≤ u → u ≤ a →
      calculate_from_transaction
          { action_type := ty, action_id := oid, dispatch_timestamp := d,
            receive_timestamp := some r, state_update_timestamp := some u,
            acknowledge_timestamp := some a } =
        some { total_ms := Rat.divInt ((a : Int) - (d : Int)) 1000000
               deserialization_ms :=
                 some (Rat.divInt ((r : Int) - (d : Int)) 1000000)
               action_processing_ms :=
                 some (Rat.divInt ((u : Int) - (r : Int)) 1000000)
               state_update_ms :=
                 some (Rat.divInt ((a : Int) - (u : Int)) 1000000)
               serialization_ms := none }) ∧
    (∀ (ty : String) (oid : Option String) (d r a : Nat),
      d ≤ r → r ≤ a →
      calculate_from_transaction
          { action_type := ty, action_id := oid, dispatch_timestamp := d,
            receive_timestamp := some r, state_update_timestamp := none,
            acknowledge_timestamp := some a } =
        some { total_ms := Rat.divInt ((a : Int) - (d : Int)) 1000000
               deserialization_ms :=
                 some (Rat.divInt ((r : Int) - (d : Int)) 1000000)
               action_processing_ms := some 0
               state_update_ms :=
                 some (Rat.divInt ((a : Int) - (r : Int)) 1000000)
               serialization_ms := none }) := by
  constructor
  · intro ty oid d r u a hdr hru hua
    have h1 : ¬ (a < d) := by omega
    have h2 : ¬ (r < d) := by omega
    have h3 : ¬ (u < r) := by omega
    have h4 : ¬ (a < u) := by omega
    have n1 : ¬ Rat.divInt ((a : Int) - (d : Int)) 1000000 < 0 :=
      not_lt.mpr (Rat.divInt_nonneg (by omega) (by norm_num))
    have n2 : ¬ Rat.divInt ((r : Int) - (d : Int)) 1000000 < 0 :=
      not_lt.mpr (Rat.divInt_nonneg (by omega) (by norm_num))
    have n3 : ¬ Rat.divInt ((u : Int) - (r : Int)) 1000000 < 0 :=
      not_lt.mpr (Rat.divInt_nonneg (by omega) (by norm_num))
    have n4 : ¬ Rat.divInt ((a : Int) - (u : Int)) 1000000 < 0 :=
      not_lt.mpr (Rat.divInt_nonneg (by omega) (by norm_num))
    simp [calculate_from_transaction, h1, h2, h3, h4, n1, n2, n3, n4]
  · intro ty oid d r a hdr hra
    have h1 : ¬ (a < d) := by omega
    have h2 : ¬ (r < d) := by omega
    have n1 : ¬ Rat.divInt ((a : Int) - (d : Int)) 1000000 < 0 :=
      not_lt.mpr (Rat.divInt_nonneg (by omega) (by norm_num))
    have n2 : ¬ Rat.divInt ((r : Int) - (d : Int)) 1000000 < 0 :=
      not_lt.mpr (Rat.divInt_nonneg (by omega) (by norm_num))
    have n4 : ¬ Rat.divInt ((a : Int) - (r : Int)) 1000000 < 0 :=
      not_lt.mpr (Rat.divInt_nonneg (by omega) (by norm_num))
    simp [calculate_from_transaction, h1, h2, n1, n2, n4]

/-- Witness for C5: the spec's concrete example, with `t0 = 0`:
`dispatch = 0`, `receive = 5ms`, `update = 7ms`, `ack = 10ms` gives
`total = 10`, `deserialization = 5`, `action_processing = 2`,
`state_update = 3`. -/
theorem calcFromTransaction_ordered_witness :
    calculate_from_transaction
      { action_type := "T", action_id := some "x", dispatch_timestamp := 0,
        receive_timestamp := some 5000000,
        state_update_timestamp := some 7000000,
        acknowledge_timestamp := some 10000000 } =
      some { total_ms := 10, deserialization_ms := some 5,
             action_processing_ms := some 2, state_update_ms := some 3,
             serialization_ms := none } := by
  have h := calcFromTransaction_ordered.1 "T" (some "x") 0 5000000 7000000
    10000000 (by decide) (by decide) (by decide)
  rw [h]
  decide

/-- The transaction store. -/
abbrev Ledger : Type := List (String × PerformanceTransaction)

/-- Rust `HashMap::get`. -/
def ledgerGet (m : Ledger) (id : String) : Option PerformanceTransaction :=
  match m with
  | [] => none
  | (k, t) :: rest => if k = id then some t else ledgerGet rest id

/-- Rust `HashMap::insert`: replace the binding if present, else add it. -/
def ledgerInsert (m : Ledger) (id : String) (t : PerformanceTransaction) :
    Ledger :=
  match m with
  | [] => [(id, t)]
  | (k, t') :: rest =>
    if k = id then (k, t) :: rest else (k, t') :: ledgerInsert rest id t

/-- In-place update of an existing binding (`HashMap::get_mut` + write);
no-op when the key is absent. -/
def ledgerSet (m : Ledger) (id : String) (t : PerformanceTransaction) :
    Ledger :=
  match m with
  | [] => []
  | (k, t') :: rest =>
    if k = id then (k, t) :: rest else (k, t') :: ledgerSet rest id t

/-- Method `TransactionManager::record_dispatch` (transaction.rs lines 91–106):
unconditionally inserts a fresh transaction with `dispatch_timestamp = now`. -/
def record_dispatch (m : Ledger) (action_id action_type : String)
    (now : Nat) : Ledger :=
  ledgerInsert m action_id
    { action_type := action_type, action_id := some action_id,
      dispatch_timestamp := now, receive_timestamp := none,
      state_update_timestamp := none, acknowledge_timestamp := none }

/-- Method `TransactionManager::record_receive` (transaction.rs lines 109–130):
sets `receive_timestamp = now` on an existing transaction; otherwise creates
one using `now` as both dispatch and receive timestamps. -/
def record_receive (m : Ledger) (action_id action_type : String)
    (now : Nat) : Ledger :=
  match ledgerGet m action_id with
  | some t => ledgerSet m action_id { t with receive_timestamp := some now }
  | none =>
    ledgerInsert m action_id
      { action_type := action_type, action_id := some action_id,
        dispatch_timestamp := now, receive_timestamp := some now,
        state_update_timestamp := none, acknowledge_timestamp := none }

/-- Method `TransactionManager::record_state_update` (transaction.rs lines 133–145). -/
def record_state_update (m : Ledger) (action_id : String) (now : Nat) :
    Ledger :=
  match ledgerGet m action_id with
  | some t =>
    ledgerSet m action_id { t with state_update_timestamp := some now }
  | none => m

/-- Method `TransactionManager::record_acknowledgement`
(transaction.rs lines 148–160). -/
def record_acknowledgement (m : Ledger) (action_id : String) (now : Nat) :
    Ledger :=
  match ledgerGet m action_id with
  | some t =>
    ledgerSet m action_id { t with acknowledge_timestamp := some now }
  | none => m

/-- One ledger operation, with its wall-clock reading. -/
inductive LedgerOp : Type where
  | dispatch (action_id action_type : String) (now : Nat)
  | receive (action_id action_type : String) (now : Nat)
  | stateUpdate (action_id : String) (now : Nat)
  | acknowledge (action_id : String) (now : Nat)

/-- Apply one ledger operation. -/
def applyOp (m : Ledger) : LedgerOp → Ledger
  | .dispatch id ty now => record_dispatch m id ty now
  | .receive id ty now => record_receive m id ty now
  | .stateUpdate id now => record_state_update m id now
  | .acknowledge id now => record_acknowledgement m id now

/-- Apply a sequence of ledger operations, oldest first. -/
def applyOps (m : Ledger) (ops : List LedgerOp) : Ledger :=
  ops.foldl applyOp m

/-- Does this operation replace the whole transaction of `id`
(`record_dispatch`)? -/
def LedgerOp.isDispatchFor : LedgerOp → String → Bool
  | .dispatch id' _ _, id => id' == id
  | _, _ => false

/-- Does this operation write the receive timestamp of `id`? -/
def LedgerOp.isReceiveFor : LedgerOp → String → Bool
  | .receive id' _ _, id => id' == id
  | _, _ => false

/-- Does this operation write the state-update timestamp of `id`? -/
def LedgerOp.isStateUpdateFor : LedgerOp → String → Bool
  | .stateUpdate id' _, id => id' == id
  | _, _ => false

/-- Does this operation write the acknowledge timestamp of `id`? -/
def LedgerOp.isAcknowledgeFor : LedgerOp → String → Bool
  | .acknowledge id' _, id => id' == id
  | _, _ => false

theorem ledgerGet_insert_self (m : Ledger) (id : String)
    (t : PerformanceTransaction) :
    ledgerGet (ledgerInsert m id t) id = some t := by
  induction m with
  | nil => simp [ledgerInsert, ledgerGet]
  | cons p rest ih =>
    obtain ⟨k, t'⟩ := p
    by_cases h : k = id <;> simp [ledgerInsert, ledgerGet, h, ih]

theorem ledgerGet_insert_ne (m : Ledger) (id id' : String)
    (t : PerformanceTransaction) (h : id' ≠ id) :
    ledgerGet (ledgerInsert m id' t) id = ledgerGet m id := by
  induction m with
  | nil => simp [ledgerInsert, ledgerGet, h]
  | cons p rest ih =>
    obtain ⟨k, t'⟩ := p
    by_cases hk : k = id' <;> simp [ledgerInsert, ledgerGet, hk, ih]
    · subst hk
      simp [h]

theorem ledgerGet_set_self (m : Ledger) (id : String)
    (t t₀ : PerformanceTransaction) (h : ledgerGet m id = some t₀) :
    ledgerGet (ledgerSet m id t) id = some t := by
  induction m with
  | nil => simp [ledgerGet] at h
  | cons p rest ih =>
    obtain ⟨k, t'⟩ := p
    by_cases hk : k = id
    · simp [ledgerSet, ledgerGet, hk]
    · simp [ledgerSet, ledgerGet, hk] at h ⊢
      exact ih h

theorem ledgerGet_set_ne (m : Ledger) (id id' : String)
    (t : PerformanceTransaction) (h : id' ≠ id) :
    ledgerGet (ledgerSet m id' t) id = ledgerGet m id := by
  induction m with
  | nil => simp [ledgerSet]
  | cons p rest ih =>
    obtain ⟨k, t'⟩ := p
    by_cases hk : k = id' <;> simp [ledgerSet, ledgerGet, hk, ih]
    · subst hk
      simp [h]

/-- C6 counterexample: two `record_receive` calls on the same id `"x"`
(at times `1` and `2`).  After the first, `receive_timestamp` is set to
`some 1`; the second call changes it to `some 2` — a timestamp that was
already set is changed by a later operation, so the claimed invariant fails
on the code. -/
theorem receive_timestamp_overwritten :
    (ledgerGet (applyOps [] [.receive "x" "T" 1]) "x").map
        (·.receive_timestamp) = some (some 1) ∧
    (ledgerGet (applyOps [] [.receive "x" "T" 1, .receive "x" "T" 2])
        "x").map (·.receive_timestamp) = some (some 2) := by
  decide

/-- C6 (amended): a timestamp field of a transaction, once set, is changed
by a later ledger operation only if that operation is a `record_dispatch` on
the same id (which replaces the whole transaction) or a repeated operation
of the very kind that writes that field on the same id.  Equivalently: every
operation that is neither a dispatch for `id` nor the designated writer of a
field leaves that field of `id`'s transaction unchanged. -/
theorem ledgerOp_frame :
    ∀ (op : LedgerOp) (m : Ledger) (i : String)
      (t t' : PerformanceTransaction),
      ledgerGet m i = some t →
      ledgerGet (applyOp m op) i = some t' →
      (¬ op.isDispatchFor i = true →
        t'.dispatch_timestamp = t.dispatch_timestamp) ∧
      (¬ op.isDispatchFor i = true → ¬ op.isReceiveFor i = true →
        t'.receive_timestamp = t.receive_timestamp) ∧
      (¬ op.isDispatchFor i = true → ¬ op.isStateUpdateFor i = true →
        t'.state_update_timestamp = t.state_update_timestamp) ∧
      (¬ op.isDispatchFor i = true → ¬ op.isAcknowledgeFor i = true →
        t'.acknowledge_timestamp = t.acknowledge_timestamp) := by
  intro op m i t t' hget hget'
  cases op with
  | dispatch j ty now =>
    by_cases hid : j = i
    · subst hid
      simp [LedgerOp.isDispatchFor]
    · rw [applyOp, record_dispatch, ledgerGet_insert_ne m i j _ hid,
        hget] at hget'
      cases hget'
      simp
  | receive j ty now =>
    by_cases hid : j = i
    · subst hid
      rw [applyOp, record_receive, hget,
        ledgerGet_set_self m j _ t hget] at hget'
      cases hget'
      simp [LedgerOp.isDispatchFor, LedgerOp.isReceiveFor,
        LedgerOp.isStateUpdateFor, LedgerOp.isAcknowledgeFor]
    · have hsame : ledgerGet (applyOp m (.receive j ty now)) i =
          ledgerGet m i := by
        rw [applyOp, record_receive]
        cases hg : ledgerGet m j with
        | some t₀ => exact ledgerGet_set_ne m i j _ hid
        | none => exact ledgerGet_insert_ne m i j _ hid
      rw [hsame, hget] at hget'
      cases hget'
      simp
  | stateUpdate j now =>
    by_cases hid : j = i
    · subst hid
      rw [applyOp, record_state_update, hget,
        ledgerGet_set_self m j _ t hget] at hget'
      cases hget'
      simp [LedgerOp.isDispatchFor, LedgerOp.isReceiveFor,
        LedgerOp.isStateUpdateFor, LedgerOp.isAcknowledgeFor]
    · have hsame : ledgerGet (applyOp m (.stateUpdate j now)) i =
          ledgerGet m i := by
        rw [applyOp, record_state_update]
        cases hg : ledgerGet m j with
        | some t₀ => exact ledgerGet_set_ne m i j _ hid
        | none => rfl
      rw [hsame, hget] at hget'
      cases hget'
      simp
  | acknowledge j now =>
    by_cases hid : j = i
    · subst hid
      rw [applyOp, record_acknowledgement, hget,
        ledgerGet_set_self m j _ t hget] at hget'
      cases hget'
      simp [LedgerOp.isDispatchFor, LedgerOp.isReceiveFor,
        LedgerOp.isStateUpdateFor, LedgerOp.isAcknowledgeFor]
    · have hsame : ledgerGet (applyOp m (.acknowledge j now)) i =
          ledgerGet m i := by
        rw [applyOp, record_acknowledgement]
        cases hg : ledgerGet m j with
        | some t₀ => exact ledgerGet_set_ne m i j _ hid
        | none => rfl
      rw [hsame, hget] at hget'
      cases hget'
      simp

/-- Witness for C6's amended theorem: a `record_state_update` on `"x"` leaves
the already-set receive timestamp of `"x"` unchanged. -/
theorem ledgerOp_frame_witness :
    (PerformanceTransaction.mk "T" (some "x") 1 (some 2) (some 5)
        none).receive_timestamp =
      (PerformanceTransaction.mk "T" (some "x") 1 (some 2) none
        none).receive_timestamp :=
  (ledgerOp_frame (.stateUpdate "x" 5)
    [("x", ⟨"T", some "x", 1, some 2, none, none⟩)] "x"
    ⟨"T", some "x", 1, some 2, none, none⟩
    ⟨"T", some "x", 1, some 2, some 5, none⟩ rfl rfl).2.1
    (by decide) (by decide)

/-- C7: `record_receive(id, ty)` on an unknown id creates a transaction with
`dispatch_timestamp = now` and `receive_timestamp = some now` (so
`dispatch_ts = receive_ts`); on a known id it sets `receive_timestamp` to
`now` on the existing transaction. -/
theorem record_receive_spec :
    ∀ (m : Ledger) (id ty : String) (now : Nat),
      (ledgerGet m id = none →
        ledgerGet (record_receive m id ty now) id =
          some { action_type := ty, action_id := some id,
                 dispatch_timestamp := now, receive_timestamp := some now,
                 state_update_timestamp := none,
                 acknowledge_timestamp := none }) ∧
      (∀ t, ledgerGet m id = some t →
        ledgerGet (record_receive m id ty now) id =
          some { t with receive_timestamp := some now }) := by
  intro m id ty now
  constructor
  · intro h
    rw [record_receive, h]
    exact ledgerGet_insert_self m id _
  · intro t h
    rw [record_receive, h]
    exact ledgerGet_set_self m id _ t h

/-- Witness for C7: `record_receive "x" "T"` at time `5` on an empty ledger
creates a transaction whose dispatch and receive timestamps are both `5`. -/
theorem record_receive_spec_witness :
    ledgerGet (record_receive [] "x" "T" 5) "x" =
      some { action_type := "T", action_id := some "x",
             dispatch_timestamp := 5, receive_timestamp := some 5,
             state_update_timestamp := none,
             acknowledge_timestamp := none } :=
  (record_receive_spec [] "x" "T" 5).1 rfl

/-! ## `transaction.rs`: size enforcement in the cleanup task

The max-transactions step of `TransactionManager::start_cleanup_task`
(transaction.rs lines 273–294): the store is drained into a vector, sorted by
dispatch timestamp ascending with the stable `sort_by_key`, truncated to
`max_transactions`, and collected back.  The drained vector (whose order the
`HashMap` does not specify) is the input list here; `Vec::truncate` keeps the
*first* `max_transactions` elements of the sorted vector. -/

/-- Stable insertion into a list sorted by dispatch timestamp: the element is
placed after every element whose key is `≤` its own, as `sort_by_key` keeps
equal keys in input order. -/
def insertByDispatch (p : String × PerformanceTransaction) :
    Ledger → Ledger
  | [] => [p]
  | q :: rest =>
    if q.2.dispatch_timestamp ≤ p.2.dispatch_timestamp then
      q :: insertByDispatch p rest
    else p :: q :: rest

/-- Rust `tx_vec.sort_by_key(|(_, tx)| tx.dispatch_timestamp)`: stable sort by
dispatch timestamp ascending. -/
def sortByDispatch : Ledger → Ledger
  | [] => []
  | p :: rest => insertByDispatch p (sortByDispatch rest)

/-- The max-transactions enforcement step of the cleanup task
(transaction.rs lines 273–294). -/
def enforce_max_transactions (max_transactions : Nat) (store : Ledger) :
    Ledger :=
  if store.length > max_transactions then
    (sortByDispatch store).take max_transactions
  else store

/-- C1: when the ledger holds more than `max_transactions` entries, the
cleanup task sorts by dispatch timestamp ascending and truncates — which
keeps the entries with the *smallest* dispatch timestamps.  At the concrete
input below (dispatch times `1 < 2 < 3`, limit `2`) the two OLDEST
transactions survive and the newest (`"c"`, dispatched at `3`) is dropped,
contradicting both the claim (oldest dropped first, newest kept) and the
code's own comment ("Keep only the newest transactions up to the limit"). -/
theorem enforce_max_transactions_keeps_oldest :
    enforce_max_transactions 2
      [("a", { action_type := "T", action_id := some "a",
               dispatch_timestamp := 1, receive_timestamp := none,
               state_update_timestamp := none,
               acknowledge_timestamp := none }),
       ("b", { action_type := "T", action_id := some "b",
               dispatch_timestamp := 2, receive_timestamp := none,
               state_update_timestamp := none,
               acknowledge_timestamp := none }),
       ("c", { action_type := "T", action_id := some "c",
               dispatch_timestamp := 3, receive_timestamp := none,
               state_update_timestamp := none,
               acknowledge_timestamp := none })] =
      [("a", { action_type := "T", action_id := some "a",
               dispatch_timestamp := 1, receive_timestamp := none,
               state_update_timestamp := none,
               acknowledge_timestamp := none }),
       ("b", { action_type := "T", action_id := some "b",
               dispatch_timestamp := 2, receive_timestamp := none,
               state_update_timestamp := none,
               acknowledge_timestamp := none })] := by
  decide

/-! ## `telemetry.rs`: bounded history insertion

`TelemetryMiddleware::add_log_entry`, history-trimming section (telemetry.rs
lines 376–392).  `Vec::drain(0..start_idx)` panics when `start_idx` exceeds
the vector's length; the panic is modelled as `none`. -/

/-- The history-insertion step of `TelemetryMiddleware::add_log_entry`
(telemetry.rs lines 376–392), parametric in the entry type.  Returns `none`
exactly when the Rust code would panic (out-of-range `drain`). -/
def add_log_entry {α : Type} (log_limit : Nat) (history : List α) (e : α) :
    Option (List α) :=
  if log_limit ≤ history.length then
    let start_idx := history.length - log_limit + 1
    if start_idx > 0 then
      if start_idx > history.length then none
      else some (history.drop start_idx ++ [e])
    else some (history ++ [e])
  else some (history ++ [e])

/-- Total version of `add_log_entry` for configurations that never panic
(`log_limit ≥ 1`); used to fold whole insertion sequences. -/
def addEntryTotal {α : Type} (log_limit : Nat) (history : List α) (e : α) :
    List α :=
  if log_limit ≤ history.length then
    history.drop (history.length - log_limit + 1) ++ [e]
  else history ++ [e]

/-- Folding a whole sequence of insertions into an initially empty history. -/
def historyAfter {α : Type} (log_limit : Nat) (es : List α) : List α :=
  es.foldl (addEntryTotal log_limit) []

theorem add_log_entry_eq_total {α : Type} (log_limit : Nat)
    (history : List α) (e : α) (h : 1 ≤ log_limit) :
    add_log_entry log_limit history e =
      some (addEntryTotal log_limit history e) := by
  unfold add_log_entry addEntryTotal
  by_cases h1 : log_limit ≤ history.length
  · have h2 : history.length - log_limit + 1 > 0 := by omega
    have h3 : ¬ history.length - log_limit + 1 > history.length := by omega
    simp [h1, h2, h3]
  · simp [h1]

theorem addEntryTotal_length_le {α : Type} (log_limit : Nat)
    (history : List α) (e : α) (hlim : 1 ≤ log_limit)
    (h : history.length ≤ log_limit) :
    (addEntryTotal log_limit history e).length ≤ log_limit := by
  unfold addEntryTotal
  by_cases h1 : log_limit ≤ history.length <;>
    simp [h1] <;> omega

theorem addEntryTotal_eq_drop {α : Type} (log_limit : Nat)
    (history : List α) (e : α) (hlim : 1 ≤ log_limit)
    (h : history.length ≤ log_limit) :
    addEntryTotal log_limit history e =
      (history ++ [e]).drop ((history ++ [e]).length - log_limit) := by
  unfold addEntryTotal
  by_cases h1 : log_limit ≤ history.length
  · have hl : history.length = log_limit := by omega
    have h2 : (history ++ [e]).length - log_limit = 1 := by
      simp [hl]
    rw [if_pos h1, h2, List.drop_append_of_le_length (by omega), hl]
    simp
  · have h2 : (history ++ [e]).length - log_limit = 0 := by
      simp only [List.length_append, List.length_cons, List.length_nil]
      omega
    rw [if_neg h1, h2, List.drop_zero]

theorem foldl_addEntryTotal_eq_drop {α : Type} (log_limit : Nat)
    (hlim : 1 ≤ log_limit) :
    ∀ (es : List α) (history : List α), history.length ≤ log_limit →
      es.foldl (addEntryTotal log_limit) history =
        (history ++ es).drop ((history ++ es).length - log_limit) := by
  intro es
  induction es with
  | nil =>
    intro history h
    simp only [List.foldl_nil, List.append_nil]
    have : history.length - log_limit = 0 := by omega
    rw [this, List.drop_zero]
  | cons e es ih =>
    intro history h
    rw [List.foldl_cons,
      ih _ (addEntryTotal_length_le log_limit history e hlim h),
      addEntryTotal_eq_drop log_limit history e hlim h]
    have hk : (history ++ [e]).length - log_limit ≤
        (history ++ [e]).length := by omega
    rw [← List.drop_append_of_le_length hk, List.drop_drop]
    have harr : history ++ e :: es = (history ++ [e]) ++ es := by simp
    rw [harr]
    congr 1
    simp only [List.length_append, List.length_drop, List.length_cons,
      List.length_nil]
    omega

/-- C4: after any sequence of insertions into an initially empty history with
`log_limit ≥ 1`, the history never exceeds `log_limit` entries, and its
contents are exactly the most recent insertions in their original order (the
oldest entries having been evicted first). -/
theorem historyAfter_bounded_fifo {α : Type} (log_limit : Nat)
    (es : List α) (hlim : 1 ≤ log_limit) :
    (historyAfter log_limit es).length ≤ log_limit ∧
    historyAfter log_limit es = es.drop (es.length - log_limit) := by
  have h := foldl_addEntryTotal_eq_drop log_limit hlim es [] (by simp)
  simp only [List.nil_append] at h
  refine ⟨?_, h⟩
  rw [historyAfter, h]
  simp only [List.length_drop]
  omega

/-- Witness for C4: the spec's example — inserting entries `1`–`1100` with
`log_limit = 1000` leaves exactly entries `101`–`1100`, in original order. -/
theorem historyAfter_bounded_fifo_witness :
    historyAfter 1000 (List.range' 1 1100) = List.range' 101 1000 := by
  rw [(historyAfter_bounded_fifo 1000 (List.range' 1 1100) (by decide)).2]
  rw [show (List.range' 1 1100).length - 1000 = 100 by simp]
  rw [← List.range'_append_1 1 100 1000]
  exact List.drop_left' (by simp)

/-- C10: `add_log_entry` never panics when `log_limit ≥ 1` (the drain range
`0..(len − log_limit + 1)` is always within bounds), while with
`log_limit = 0` the very first insertion drains `0..1` on an empty history,
which is out of bounds and panics (modelled as `none`). -/
theorem add_log_entry_panic :
    (∀ (α : Type) (log_limit : Nat) (history : List α) (e : α),
      1 ≤ log_limit → (add_log_entry log_limit history e).isSome = true) ∧
    add_log_entry 0 ([] : List Unit) () = none := by
  constructor
  · intro α log_limit history e h
    rw [add_log_entry_eq_total log_limit history e h]
    rfl
  · rfl

/-- Witness for C10: with `log_limit = 1` an insertion into an empty history
succeeds. -/
theorem add_log_entry_panic_witness :
    (add_log_entry 1 ([] : List Unit) ()).isSome = true :=
  add_log_entry_panic.1 Unit 1 [] () (by decide)


/-! ## `telemetry.rs`: state deltas and the post-hook

`State` is a `serde_json::Value` (`JVal` here).  `TelemetryEntry` keeps the
fields of the Rust struct except the wall-clock `timestamp`, which no claim
mentions. -/

/-- Entry kinds (`TelemetryEntryType` in telemetry.rs). -/
inductive TelemetryEntryType : Type where
  | actionDispatched
  | stateUpdated
  | actionCancelled
  | error

/-- Rust `StateSummary` from telemetry.rs. -/
structure StateSummary : Type where
  size_bytes : Nat
  property_count : Nat
  properties : List String

/-- Rust `TelemetryEntry` from telemetry.rs (minus the `chrono` timestamp). -/
structure TelemetryEntry : Type where
  entry_type : TelemetryEntryType
  action : Option Action
  state : Option JVal
  state_summary : Option StateSummary
  state_delta : Option JVal
  context_id : String
  processing_metrics : Option Metrics

/-- Method `TelemetryMiddleware::calculate_state_delta` (telemetry.rs lines
435–469), with the middleware's `last_state` field passed explicitly.  For
two object states the delta holds every key of the current state that is
absent from the previous state or bound to a different value; an empty delta
becomes `None`; non-object shapes and a missing previous state give `None`. -/
def calculate_state_delta (last_state : Option JVal) (state : JVal) :
    Option JVal :=
  match last_state with
  | none => none
  | some prev_state =>
    match prev_state, state with
    | .jobj prev_map, .jobj current_map =>
      let delta := current_map.filter fun kv =>
        !containsKey prev_map kv.1 ||
          !(match getField prev_map kv.1 with
            | some pv => pv.beq kv.2
            | none => false)
      if delta.isEmpty then none else some (.jobj delta)
    | _, _ => none

/-- The mutable state of a `TelemetryMiddleware`: its `last_state` field and
its bounded `log_history` (each behind an `RwLock` in Rust). -/
structure TelemetryMState : Type where
  last_state : Option JVal
  log_history : List TelemetryEntry

/-- Method `TelemetryMiddleware::after_action` (telemetry.rs lines 495–581) under
the configuration of claim C3: `record_state_delta = true`,
`record_state_size = false`, `measure_performance = false` (so
`state_summary` and `processing_metrics` are `None` exactly as in the Rust
code under that configuration).  The entry is appended through
`add_log_entry`; `none` models that call panicking.  Note that the Rust
method reads `self.last_state` through `calculate_state_delta` but NEVER
writes it — no assignment to `self.last_state` exists anywhere in
telemetry.rs — so the field stays as constructed (`None`). -/
def after_action (log_limit : Nat) (s : TelemetryMState) (action : Action)
    (state : JVal) (ctx_id : String) : Option TelemetryMState :=
  let state_delta := calculate_state_delta s.last_state state
  let state_update : TelemetryEntry :=
    { entry_type := .stateUpdated, action := some action,
      state := some state, state_summary := none,
      state_delta := state_delta, context_id := ctx_id,
      processing_metrics := none }
  match add_log_entry log_limit s.log_history state_update with
  | some h => some { last_state := s.last_state, log_history := h }
  | none => none

/-- C3 evaluated at the failing input: two consecutive post-hook calls with
states `{"a": 1}` then `{"a": 2}` and `record_state_delta` enabled.  The
second `StateUpdated` entry carries NO `state_delta` (because `last_state`
is never updated, every delta is computed against `None`), although the
shallow diff of `{"a": 2}` against the immediately preceding state
`{"a": 1}` is `{"a": 2}`.  This contradicts the claim and the field's own
documentation ("Last state for calculating deltas"); the sibling
`logging.rs` implementation of the same hook does write `last_state`. -/
theorem after_action_second_delta_none :
    ((after_action 1000 { last_state := none, log_history := [] }
        { action_type := "SET", payload := none, id := none,
          source_window_id := none }
        (.jobj [("a", .jint 1)]) "c1").bind fun s1 =>
      after_action 1000 s1
        { action_type := "SET", payload := none, id := none,
          source_window_id := none }
        (.jobj [("a", .jint 2)]) "c2").map
        (fun s => s.log_history.map (·.state_delta)) =
      some [none, none] ∧
    calculate_state_delta (some (.jobj [("a", .jint 1)]))
        (.jobj [("a", .jint 2)]) =
      some (.jobj [("a", .jint 2)]) := by
  exact ⟨rfl, rfl⟩



/-! ## `middleware.rs`: the pipeline orchestrator

`ZubridgeMiddleware::process_action` (middleware.rs lines 193–451).  The
model keeps the observables the claims speak about: which pre-hooks ran, the
resulting shared state, how many post-hooks ran, and the returned
`Result` (`ok`).  The timing metadata writes, the debug logging, the
artificial `delay_ms` busy-wait and the final `record_state_update`
forwarding (whose ledger calls always return `Ok`) do not affect these
observables and are not modelled. -/

/-- One registered middleware, by its pre-hook (`Middleware::before_action`).
Post-hooks are only counted by the orchestrator model, so their body is not
needed. -/
structure MiddlewareHook : Type where
  before_action : Action → Option Action

/-- The pre-hook loop of `process_action` (middleware.rs lines 263–271):
threads the (possibly replaced) action through every middleware in order,
breaking as soon as one returns `None`.  Also returns how many pre-hooks
were invoked. -/
def run_before (mws : List MiddlewareHook) (a : Action) :
    Option Action × Nat :=
  match mws with
  | [] => (some a, 0)
  | m :: rest =>
    match m.before_action a with
    | none => (none, 1)
    | some a' =>
      let r := run_before rest a'
      (r.1, r.2 + 1)

/-- The generic state-merge of `process_action` (middleware.rs lines
301–358): an object payload is merged key by key into an object state; a
scalar payload is stored under the sanitized, lower-cased action type; a
payload-less action records its type under `"last_action"`; a non-object
state is replaced by a fresh object in the scalar and payload-less cases. -/
def apply_action_to_state (state : JVal) (action : Action) : JVal :=
  match action.payload with
  | some payload =>
    match payload with
    | .jobj payload_obj =>
      match state with
      | .jobj state_obj =>
        .jobj (payload_obj.foldl (fun so kv => insertField so kv.1 kv.2)
          state_obj)
      | _ => state
    | _ =>
      let key := (action.action_type.replace ":" "_").toLower
      match state with
      | .jobj state_obj => .jobj (insertField state_obj key payload)
      | _ => .jobj [(key, payload)]
  | none =>
    match state with
    | .jobj state_obj =>
      .jobj (insertField state_obj "last_action" (.jstr action.action_type))
    | _ => .jobj [("last_action", .jstr action.action_type)]

/-- Observable outcome of one `process_action` call. -/
structure ProcOutcome : Type where
  state : JVal
  pre_hooks_run : Nat
  post_hooks_run : Nat
  ok : Bool

/-- Method `ZubridgeMiddleware::process_action`: run the pre-hook chain; if the
action was cancelled, return `Ok(())` at once with the state untouched and
no post-hook run (lines 274–279); otherwise merge the action into the state
and run every middleware's post-hook (lines 376–379). -/
def process_action (mws : List MiddlewareHook) (state : JVal)
    (action : Action) : ProcOutcome :=
  match run_before mws action with
  | (none, n) =>
    { state := state, pre_hooks_run := n, post_hooks_run := 0, ok := true }
  | (some a', n) =>
    { state := apply_action_to_state state a', pre_hooks_run := n,
      post_hooks_run := mws.length, ok := true }

theorem run_before_append_cancel :
    ∀ (pre : List MiddlewareHook) (a a' : Action) (m : MiddlewareHook)
      (post : List MiddlewareHook),
      run_before pre a = (some a', pre.length) →
      m.before_action a' = none →
      run_before (pre ++ m :: post) a = (none, pre.length + 1) := by
  intro pre
  induction pre with
  | nil =>
    intro a a' m post hpre hm
    simp only [run_before, List.length_nil, Prod.mk.injEq] at hpre
    obtain ⟨ha, -⟩ := hpre
    cases ha
    simp [run_before, hm]
  | cons mw rest ih =>
    intro a a' m post hpre hm
    rw [run_before] at hpre
    cases hmw : mw.before_action a with
    | none => rw [hmw] at hpre; simp at hpre
    | some a₁ =>
      rw [hmw] at hpre
      simp only [Prod.mk.injEq, List.length_cons] at hpre
      obtain ⟨h1, h2⟩ := hpre
      have hrec : run_before rest a₁ = (some a', rest.length) := by
        rw [Prod.ext_iff]
        exact ⟨h1, by omega⟩
      have := ih a₁ a' m post hrec hm
      simp [run_before, hmw, this]

/-- C8: if a middleware's `before_action` returns `None` during
`process_action`, processing stops immediately: the shared state is left
unchanged, none of the remaining pre-hooks and none of the `after_action`
post-hooks run, and the call returns success. -/
theorem process_action_cancelled :
    ∀ (pre post : List MiddlewareHook) (m : MiddlewareHook) (st : JVal)
      (a a' : Action),
      run_before pre a = (some a', pre.length) →
      m.before_action a' = none →
      process_action (pre ++ m :: post) st a =
        { state := st, pre_hooks_run := pre.length + 1,
          post_hooks_run := 0, ok := true } := by
  intro pre post m st a a' hpre hm
  rw [process_action, run_before_append_cancel pre a a' m post hpre hm]

/-- Witness for C8: a cancelling middleware in first position, followed by
another middleware whose pre-hook would pass the action on; the state is
untouched, exactly one pre-hook and no post-hook ran, and the result is
success. -/
theorem process_action_cancelled_witness :
    process_action
      [{ before_action := fun _ => none },
       { before_action := fun a => some a }]
      (.jobj [("k", .jint 7)])
      { action_type := "SET", payload := none, id := none,
        source_window_id := none } =
      { state := .jobj [("k", .jint 7)], pre_hooks_run := 1,
        post_hooks_run := 0, ok := true } :=
  process_action_cancelled [] [{ before_action := fun a => some a }]
    { before_action := fun _ => none } (.jobj [("k", .jint 7)])
    { action_type := "SET", payload := none, id := none,
      source_window_id := none }
    { action_type := "SET", payload := none, id := none,
      source_window_id := none }
    rfl rfl



/-! ## `serialization.rs`: JSON normalization of metric fields

The JSON branch of `serialize` (serialization.rs lines 28–55) normalizes the
`serde_json::Value` before encoding; the encoding to bytes itself cannot
change a value's JSON type, so the normalized value is what the claims are
about.  `str::parse::<f64>` is modelled over Rust's full f64 grammar
(optional sign; `inf`/`infinity`/`nan` case-insensitively; or a decimal
mantissa `digits`, `digits.`, `digits.digits` or `.digits` with an optional
`e`/`E` exponent).  The numeric value is kept as an exact rational — the
file's f64 convention — except where rounding changes the JSON *type*
downstream: a finite decimal whose magnitude reaches f64's overflow
threshold parses to infinity in Rust, and `Number::from_f64` then fails, so
such strings are classified non-finite here.  `Number::from_f64(int as f64)`
on an `i64` is always finite, so its sub-2^53 rounding is irrelevant to the
type of the result. -/

/-- The five metric fields normalized by `ensure_numeric_metrics`. -/
def metric_fields : List String :=
  ["total_ms", "deserialization_ms", "action_processing_ms",
   "state_update_ms", "serialization_ms"]

/-- Value of a digit character. -/
def digitVal (c : Char) : Nat := c.toNat - 48

/-- Digits to a natural number. -/
def digitsToNat (cs : List Char) : Nat :=
  cs.foldl (fun acc c => acc * 10 + digitVal c) 0

/-- Outcome of a successful `str::parse::<f64>()`: a finite value (kept as
an exact rational), or a non-finite one (`inf`, `-inf` or `NaN`), on which
`serde_json::Number::from_f64` subsequently fails. -/
inductive F64Parse : Type where
  | finite : ℚ → F64Parse
  | nonfinite : F64Parse
deriving DecidableEq

/-- Smallest magnitude at which round-to-nearest-even takes a decimal out of
f64's finite range: the midpoint between `f64::MAX = 2^1024 − 2^971` and
`2^1024`, written as an integer literal so concrete parses reduce inside the
kernel; `f64_overflow_threshold_eq` certifies the value. -/
def f64_overflow_threshold : ℚ :=
  Rat.divInt
    179769313486231580793728971405303415079934132710037826936173778980444968292764750946649017977587207096330286416692887910946555547851940402630657488671505820681908902000708383676273854845817711531764475730270069855571366959622842914819860834936475292719074168444365510704342711559699508093042880177904174497792
    1

theorem f64_overflow_threshold_eq :
    f64_overflow_threshold = Rat.divInt (2 ^ 1024 - 2 ^ 970) 1 := by
  rw [f64_overflow_threshold]
  norm_num

/-- Model of `str::parse::<f64>()` over Rust's grammar: optional sign, then
`inf`/`infinity`/`nan` (case-insensitive) or a decimal mantissa with an
optional exponent.  The magnitude is built as one numerator/denominator
pair so concrete calls reduce inside the kernel; magnitudes at or beyond
the overflow threshold round to infinity. -/
def parse_f64 (s : String) : Option F64Parse :=
  let cs := s.toList
  let signed : Bool × List Char :=
    match cs with
    | '+' :: rest => (false, rest)
    | '-' :: rest => (true, rest)
    | _ => (false, cs)
  let body := signed.2
  let lower := body.map Char.toLower
  if lower = ['i', 'n', 'f'] ∨
      lower = ['i', 'n', 'f', 'i', 'n', 'i', 't', 'y'] ∨
      lower = ['n', 'a', 'n'] then
    some .nonfinite
  else
    let intPart := body.takeWhile Char.isDigit
    let rest1 := body.dropWhile Char.isDigit
    let fracRest : List Char × List Char :=
      match rest1 with
      | '.' :: r => (r.takeWhile Char.isDigit, r.dropWhile Char.isDigit)
      | r => ([], r)
    let frac := fracRest.1
    let rest2 :=
      match rest1 with
      | '.' :: _ => fracRest.2
      | r => r
    if intPart.isEmpty && frac.isEmpty then none
    else
      let expVal : Option Int :=
        match rest2 with
        | [] => some 0
        | c :: r =>
          if c = 'e' ∨ c = 'E' then
            let esigned : Bool × List Char :=
              match r with
              | '+' :: er => (false, er)
              | '-' :: er => (true, er)
              | _ => (false, r)
            if esigned.2.isEmpty || !esigned.2.all Char.isDigit then none
            else
              some (if esigned.1 then -(digitsToNat esigned.2 : Int)
                else (digitsToNat esigned.2 : Int))
          else none
      match expVal with
      | none => none
      | some e =>
        let num : Nat := digitsToNat (intPart ++ frac)
        let scaleExp : Int := e - (frac.length : Int)
        let nd : Int × Int :=
          if 0 ≤ scaleExp then
            ((num : Int) * (10 : Int) ^ scaleExp.toNat, 1)
          else ((num : Int), (10 : Int) ^ (-scaleExp).toNat)
        let magnitude : ℚ := Rat.divInt nd.1 nd.2
        if f64_overflow_threshold ≤ magnitude then some .nonfinite
        else
          some (.finite (Rat.divInt (if signed.1 then -nd.1 else nd.1) nd.2))

/-- Constants `i64::MIN` and `i64::MAX` bound the range in which `serde_json`'s
`Value::as_i64` succeeds on an integer-backed number. -/
def i64Min : Int := -(2 ^ 63)

/-- Constant `i64::MAX`. -/
def i64Max : Int := 2 ^ 63 - 1

/-- The per-field body of `ensure_numeric_metrics` (serialization.rs lines
95–114): a string parsing as a finite `f64` becomes a float number; a string
parsing as a non-finite `f64` falls into
`Number::from_f64(num).unwrap_or(Number::from(0))`'s fallback and becomes
the INTEGER-backed number `0`; an unparseable string is kept; an
integer-backed number in `i64` range becomes a float number (as `int as f64`
is always finite); anything else is kept. -/
def coerce_metric_value (v : JVal) : JVal :=
  match v with
  | .jstr s =>
    match parse_f64 s with
    | some (.finite q) => .jfloat q
    | some .nonfinite => .jint 0
    | none => .jstr s
  | .jint n =>
    if i64Min ≤ n ∧ n ≤ i64Max then .jfloat (Rat.divInt n 1) else .jint n
  | v => v

/-- One iteration of the `for field in [...]` loop of
`ensure_numeric_metrics`: coerce the named field when present. -/
def coerceFieldStep (mo : List (String × JVal)) (field : String) :
    List (String × JVal) :=
  match getField mo field with
  | some v => setField mo field (coerce_metric_value v)
  | none => mo

/-- Function `ensure_numeric_metrics` (serialization.rs lines 89–118): looks up the
direct field `processing_metrics` of the given object and, when it is an
object, coerces each of the five metric fields present in it.  It does NOT
recurse into any other field. -/
def ensure_numeric_metrics (obj : List (String × JVal)) :
    List (String × JVal) :=
  match getField obj "processing_metrics" with
  | some (.jobj metrics_obj) =>
    setField obj "processing_metrics"
      (.jobj (metric_fields.foldl coerceFieldStep metrics_obj))
  | _ => obj

theorem getField_setField_ne (fs : List (String × JVal)) (k k' : String)
    (v : JVal) (h : k' ≠ k) :
    getField (setField fs k' v) k = getField fs k := by
  induction fs with
  | nil => simp [setField]
  | cons p rest ih =>
    obtain ⟨k₀, v₀⟩ := p
    by_cases hk : k₀ = k' <;> simp [setField, getField, hk, ih]
    · subst hk
      simp [h]

theorem ensure_numeric_metrics_other (obj : List (String × JVal))
    (k : String) (h : k ≠ "processing_metrics") :
    getField (ensure_numeric_metrics obj) k = getField obj k := by
  unfold ensure_numeric_metrics
  cases hpm : getField obj "processing_metrics" with
  | none => rfl
  | some v =>
    cases v with
    | jobj mo => exact getField_setField_ne obj k _ _ (fun hk => h hk.symm)
    | jnull => rfl
    | jbool b => rfl
    | jint n => rfl
    | jfloat q => rfl
    | jstr s => rfl
    | jarr xs => rfl

end Zubridge
